import Mathlib

/-!
Verification development for the Mandelbrot renderer repository
(a Win32 C++ program: Mandelbrot.cpp, WorkQueue.cpp, HSVtoRGB.cpp and
headers).  The definitions below are a shallow embedding of the parts of
the program that the documented properties talk about: the tile
partitioner of the WM_PAINT handler, the WorkQueue class, the escape-time
kernel loop of MandelbrotWorkerThread, the two color mappers, the
parameter validation of the Parameters dialog and of the ID_FILE_OPEN
handler, and the ReverseRGBBytes byte swapper.

Machine integers are modelled as Nat / Int; C double arithmetic is
modelled as exact rational arithmetic where the properties at issue do
not depend on rounding error, and this is noted at each definition.
The C log function (used only by the triple-log HSV hue) is kept as an
abstract parameter, since none of the properties below depend on its
values.
-/

namespace Mandelbrot

/-- Embedding of ReverseRGBBytes (HSVtoRGB.cpp).  The C source is
    temp += (input and 0x000000ff) shifted left 16;
    temp += (input and 0x0000ff00);
    temp += (input and 0x00ff0000) shifted right 16;
on uint32_t.  The sum is below 2^24, so plain Nat addition is faithful. -/
def ReverseRGBBytes (input : ℕ) : ℕ :=
  ((input &&& 0x000000ff) <<< 16) + (input &&& 0x0000ff00) + ((input &&& 0x00ff0000) >>> 16)

/-- C cast of a double (here: exact rational) to an integer type:
truncation toward zero. -/
def truncQ (q : ℚ) : ℤ :=
  if 0 ≤ q then ⌊q⌋ else ⌈q⌉

/-- The indexed-RGB pixel value written by MandelbrotWorkerThread
(Mandelbrot.cpp:1514-1515 and 1579-1580):
ReverseRGBBytes((COLORREF)(-16777216.0 / Iterations * iteration + 16777216.0)).
The double expression is modelled in exact rational arithmetic; the
COLORREF cast truncates toward zero (truncQ), and the value is nonnegative
for 0 ≤ iteration ≤ Iterations, so Int.toNat is faithful. -/
def indexedRGBPixel (iteration Iterations : ℕ) : ℕ :=
  ReverseRGBBytes (truncQ (-16777216 / (Iterations : ℚ) * iteration + 16777216)).toNat

/-- Modelled from the spec: the indexed-RGB formula as the spec words it,
value = round(16777216 * (1 - k/M)) interpreted as a 24-bit RGB integer,
then channel-swapped.  Used only to compare the spec wording with the
code (indexedRGBPixel). -/
def specIndexedRGBRound (k M : ℕ) : ℕ :=
  ReverseRGBBytes ((round ((16777216 : ℚ) * (1 - (k : ℚ) / M))).toNat % 2 ^ 24)

/-- The indexed-RGB formula with the rounding corrected to the truncation
the C cast performs: value = trunc(16777216 * (1 - k/M)) reduced to its
low 24 bits, then channel-swapped.  Compared with indexedRGBPixel. -/
def specIndexedRGBTrunc (k M : ℕ) : ℕ :=
  ReverseRGBBytes ((truncQ ((16777216 : ℚ) * (1 - (k : ℚ) / M))).toNat % 2 ^ 24)

/-- struct sHSV of HSVtoRGB.h (double fields modelled as ℚ). -/
structure sHSV where
  h : ℚ
  s : ℚ
  v : ℚ
  deriving DecidableEq

/-- struct sRGB of HSVtoRGB.h (double fields modelled as ℚ). -/
structure sRGB where
  r : ℚ
  g : ℚ
  b : ℚ
  deriving DecidableEq

/-- Embedding of mandelbrotHSV (HSVtoRGB.cpp).  The C function has a
function-local static
  static double lllmax_iterations = log(log(log(max_iterations)));
which is initialized exactly once, on the first call in the whole
process, and never recomputed.  That static cell is made explicit here as
a threaded state of type Option ℚ (none = not yet initialized); each call
returns the color together with the new cell contents.  The triple log
x maps to log(log(log(x))) is kept abstract as the parameter lll, since
the properties below hold for every lll. -/
def mandelbrotHSV (lll : ℕ → ℚ) (cache : Option ℚ)
    (iteration max_iterations : ℕ) : sHSV × Option ℚ :=
  let lllmax := cache.getD (lll max_iterations)
  if iteration = max_iterations then
    (⟨0, 0, 0⟩, some lllmax)
  else
    (⟨lll iteration / lllmax * 360, 1, 1⟩, some lllmax)

/-- Embedding of hsv2rgb (HSVtoRGB.cpp).  The C switch is on
i = (long)hh, a truncation toward zero, with all values other than 0..4
falling to the default branch. -/
def hsv2rgb (inp : sHSV) : sRGB :=
  if inp.s ≤ 0 then ⟨inp.v, inp.v, inp.v⟩
  else
    let hh0 := if 360 ≤ inp.h then 0 else inp.h
    let hh := hh0 / 60
    let i : ℤ := truncQ hh
    let ff : ℚ := hh - i
    let p := inp.v * (1 - inp.s)
    let q := inp.v * (1 - inp.s * ff)
    let t := inp.v * (1 - inp.s * (1 - ff))
    if i = 0 then ⟨inp.v, t, p⟩
    else if i = 1 then ⟨q, inp.v, p⟩
    else if i = 2 then ⟨p, inp.v, t⟩
    else if i = 3 then ⟨p, q, inp.v⟩
    else if i = 4 then ⟨t, p, inp.v⟩
    else ⟨inp.v, p, q⟩

/-- The packing of an sRGB fraction triple into a pixel used by
MandelbrotWorkerThread (Mandelbrot.cpp:1506-1509):
(int)(r*255 + 0.5) + ((int)(g*255 + 0.5) shifted left 8)
                   + ((int)(b*255 + 0.5) shifted left 16). -/
def packRGB (c : sRGB) : ℤ :=
  truncQ (c.r * 255 + 1/2) + truncQ (c.g * 255 + 1/2) * 2 ^ 8 +
    truncQ (c.b * 255 + 1/2) * 2 ^ 16

/-- State of the WorkQueue class (WorkQueue.cpp, WorkQueue.h).  The doubly
linked list of WorkItem nodes is modelled as a list whose first element is
the node at _head and whose last element is the node at _tail.  The field
slices models the int member _Slices, which no member function of the
class ever assigns. -/
structure WorkQueue where
  items : List (Int × Int)
  slices : Int
  deriving DecidableEq

/-- The WorkQueue constructor sets _head = _tail = NULL and leaves _Slices
uninitialized; g is the indeterminate value the field happens to hold. -/
def WorkQueue.init (g : Int) : WorkQueue :=
  ⟨[], g⟩

/-- WorkQueue::Enqueue (WorkQueue.cpp:25-48): the new WorkItem becomes the
new _head, so it is prepended to the list. -/
def WorkQueue.Enqueue (q : WorkQueue) (StartPixel EndPixel : Int) : WorkQueue :=
  ⟨(StartPixel, EndPixel) :: q.items, q.slices⟩

/-- WorkQueue::Dequeue (WorkQueue.cpp:50-74): returns false when _tail is
NULL, otherwise removes and returns the item at _tail, the last element of
the list. -/
def WorkQueue.Dequeue (q : WorkQueue) : Option ((Int × Int) × WorkQueue) :=
  q.items.getLast?.map (fun t => (t, ⟨q.items.dropLast, q.slices⟩))

/-- WorkQueue::getSlices (WorkQueue.h): returns _Slices. -/
def WorkQueue.getSlices (q : WorkQueue) : Int :=
  q.slices

/-- A sequence of Enqueue calls, first element first. -/
def WorkQueue.enqueueAll (q : WorkQueue) : List (Int × Int) → WorkQueue
  | [] => q
  | t :: ts => (q.Enqueue t.1 t.2).enqueueAll ts

/-- The tile-building loop of the WM_PAINT handler
(Mandelbrot.cpp:600-605):
for (StartPixel = 0, EndPixel = PixelStepSize;
     EndPixel < MaxPixel;
     StartPixel += PixelStepSize,
     EndPixel = min(EndPixel + PixelStepSize, MaxPixel))
  Enqueue(StartPixel, EndPixel);
returning the enqueued pairs in order together with the final value of
EndPixel.  The loop advances EndPixel by PixelStepSize ≥ 1 toward
MaxPixel each iteration (when PixelStepSize = 0, i.e. Slices > MaxPixel,
the C loop does not terminate), so fuel MaxPixel.toNat + 1 is enough for
every terminating run. -/
def tileLoop (MaxPixel PixelStepSize : Int) :
    Int → Int → ℕ → List (Int × Int) × Int
  | _, EndPixel, 0 => ([], EndPixel)
  | StartPixel, EndPixel, n + 1 =>
    if EndPixel < MaxPixel then
      let r := tileLoop MaxPixel PixelStepSize (StartPixel + PixelStepSize)
        (min (EndPixel + PixelStepSize) MaxPixel) n
      ((StartPixel, EndPixel) :: r.1, r.2)
    else ([], EndPixel)

/-- The complete list of tiles enqueued before the workers start
(Mandelbrot.cpp:593-606): PixelStepSize = MaxPixel / Slices, then the loop
above, then the trailing
if (EndPixel - PixelStepSize < MaxPixel)
  Enqueue(EndPixel - PixelStepSize + 1, MaxPixel); -/
def enqueuedTiles (MaxPixel Slices : Int) : List (Int × Int) :=
  let PixelStepSize := MaxPixel / Slices
  let r := tileLoop MaxPixel PixelStepSize 0 PixelStepSize (MaxPixel.toNat + 1)
  if r.2 - PixelStepSize < MaxPixel then
    r.1 ++ [(r.2 - PixelStepSize + 1, MaxPixel)]
  else r.1

/-- How many of the tiles cover pixel p.  A worker processes a tile
(StartPixel, EndPixel) with the loop
for (Pixel = StartPixel; Pixel < EndPixel; ++Pixel)
(Mandelbrot.cpp:1457, 1522), i.e. tiles are half-open ranges. -/
def coverCount (tiles : List (Int × Int)) (p : Int) : ℕ :=
  (tiles.filter (fun t => decide (t.1 ≤ p ∧ p < t.2))).length

/-- The per-pixel state of the escape-time loop: x, y, x2, y2. -/
structure KernelState (α : Type) where
  x : α
  y : α
  x2 : α
  y2 : α

/-- One body execution of the escape-time loop
(Mandelbrot.cpp:1480-1487 and 1545-1552):
y = (x + x) * y + y0; x = x2 - y2 + x0; x2 = x * x; y2 = y * y. -/
def kernelStep {α : Type} [Add α] [Sub α] [Mul α] (x0 y0 : α)
    (s : KernelState α) : KernelState α :=
  let y := (s.x + s.x) * s.y + y0
  let x := s.x2 - s.y2 + x0
  ⟨x, y, x * x, y * y⟩

/-- The counting loop
while (test(state) and iteration < Iterations) { state = step(state); ++iteration; }
started at iteration = 0, returning the final iteration count.  The fuel
argument is Iterations - iteration, so the result is the number of body
executions.  It is kept generic in the state type, the loop test and the
step, so that it covers both numeric backends of MandelbrotWorkerThread
(and indeed any arithmetic whatsoever). -/
def escapeLoop {σ : Type} (test : σ → Bool) (step : σ → σ) : σ → ℕ → ℕ
  | _, 0 => 0
  | s, n + 1 => if test s then escapeLoop test step (step s) n + 1 else 0

/-- The FPU (double) branch of MandelbrotWorkerThread
(Mandelbrot.cpp:1454-1487), with double modelled as exact ℚ: loop test
x2 + y2 ≤ 4.0, initial values 0, recurrence kernelStep. -/
def mandelbrotIterFPU (x0 y0 : ℚ) (Iterations : ℕ) : ℕ :=
  escapeLoop (fun s : KernelState ℚ => decide (s.x2 + s.y2 ≤ 4))
    (kernelStep x0 y0) ⟨0, 0, 0, 0⟩ Iterations

/-- The TTMath branch of MandelbrotWorkerThread
(Mandelbrot.cpp:1519-1552): textually the same loop on
ttmath Big⟨1,4⟩ values, modelled over ℚ exactly like the FPU branch. -/
def mandelbrotIterTTMath (x0 y0 : ℚ) (Iterations : ℕ) : ℕ :=
  escapeLoop (fun s : KernelState ℚ => decide (s.x2 + s.y2 ≤ 4))
    (kernelStep x0 y0) ⟨0, 0, 0, 0⟩ Iterations

/-- One full parameter record: the four viewport bounds, the three counts
and the three flags, in the order of the global variables of
Mandelbrot.cpp and of the .mbf file layout. -/
structure ParamRecord where
  dxMin : ℚ
  dxMax : ℚ
  dyMin : ℚ
  dyMax : ℚ
  Iterations : ℤ
  Slices : ℤ
  Threads : ℤ
  bShowAxes : Bool
  bUseHSV : Bool
  bUseTTMath : Bool
  deriving DecidableEq

/-- The validation chain of the Parameters dialog IDOK handler
(Mandelbrot.cpp:1303-1341), in source order.  Note that the second test
of the source is (dxMaxTemp >= dyMaxTemp) even though its error message
reads "Y Min must be less than Y Max."; dyMinTemp is not compared with
dyMaxTemp anywhere.  Returns true when every check passes, i.e. when the
dialog accepts the values into the live parameters. -/
def dialogValidationAccepts (p : ParamRecord) : Bool :=
  if p.dxMin ≥ p.dxMax then false
  else if p.dxMax ≥ p.dyMax then false
  else if p.Iterations ≤ 0 then false
  else if p.Slices ≤ 0 then false
  else if p.Threads ≤ 0 ∨ p.Threads ≥ 65 then false
  else true

/-- The validation of the ID_FILE_OPEN handler (Mandelbrot.cpp:422-434).
bReadOK is false when any of the ten ReadFile calls came up short. -/
def fileValidationAccepts (bReadOK : Bool) (p : ParamRecord) : Bool :=
  if bReadOK = false ∨ p.dxMin ≥ p.dxMax ∨ p.dyMin ≥ p.dyMax ∨
      p.Iterations < 1 ∨ p.Slices < 1 ∨ p.Threads < 1 ∨ p.Threads > 64 then
    false
  else true

/-- The state transformation of the ID_FILE_OPEN handler
(Mandelbrot.cpp:406-453): the record is read into temporaries (none
models a short read), validated, and only on success copied over the live
parameters; on any failure the handler breaks out and the live parameters
keep their previous values. -/
def fileOpenResult (cur : ParamRecord) (readRec : Option ParamRecord) : ParamRecord :=
  match readRec with
  | none => cur
  | some t => if fileValidationAccepts true t then t else cur

/-- Masking with a contiguous block of m one bits starting at bit k
extracts that field: w &&& ((2^m - 1) <<< k) = w / 2^k % 2^m * 2^k. -/
theorem land_mask (w k m : ℕ) :
    w &&& ((2 ^ m - 1) <<< k) = w / 2 ^ k % 2 ^ m * 2 ^ k := by
  apply Nat.eq_of_testBit_eq
  intro i
  rw [← Nat.shiftRight_eq_div_pow, ← Nat.shiftLeft_eq]
  rw [Nat.testBit_land, Nat.testBit_shiftLeft, Nat.testBit_shiftLeft,
    Nat.testBit_two_pow_sub_one, Nat.testBit_mod_two_pow, Nat.testBit_shiftRight]
  by_cases hki : k ≤ i
  · have hik : k + (i - k) = i := by omega
    rw [hik]
    cases hw : w.testBit i <;> cases hm : decide (i - k < m) <;>
      simp [hki, hw, hm, ge_iff_le]
  · simp [hki, ge_iff_le]

/-- ReverseRGBBytes written out in divisions and remainders of the three
source bytes. -/
theorem ReverseRGBBytes_arith (w : ℕ) :
    ReverseRGBBytes w = w % 256 * 65536 + w / 256 % 256 * 256 + w / 65536 % 256 := by
  have h1 : w &&& 0x000000ff = w % 256 := by
    have h := land_mask w 0 8
    rw [Nat.shiftLeft_eq] at h
    norm_num at h
    exact h
  have h2 : w &&& 0x0000ff00 = w / 256 % 256 * 256 := by
    have h := land_mask w 8 8
    rw [Nat.shiftLeft_eq] at h
    norm_num at h
    exact h
  have h3 : w &&& 0x00ff0000 = w / 65536 % 256 * 65536 := by
    have h := land_mask w 16 8
    rw [Nat.shiftLeft_eq] at h
    norm_num at h
    exact h
  rw [ReverseRGBBytes, h1, h2, h3, Nat.shiftLeft_eq, Nat.shiftRight_eq_div_pow]
  norm_num

/-- ReverseRGBBytes only looks at the low 24 bits of its input. -/
theorem ReverseRGBBytes_mod24 (w : ℕ) :
    ReverseRGBBytes (w % 2 ^ 24) = ReverseRGBBytes w := by
  rw [ReverseRGBBytes_arith, ReverseRGBBytes_arith]
  have e : (2 : ℕ) ^ 24 = 16777216 := by norm_num
  rw [e]
  omega

/-- C10: for every 32-bit word w, ReverseRGBBytes exchanges the low byte
with the byte at bits 16-23, preserves bits 8-15, zeroes the top byte, so
the result is below 2^24, and applying it twice yields w with the top
byte cleared (w % 2^24). -/
theorem bytes_split (a b c : ℕ) (ha : a < 256) (hb : b < 256) (hc : c < 256) :
    (a * 65536 + b * 256 + c) % 256 = c ∧
    (a * 65536 + b * 256 + c) / 256 % 256 = b ∧
    (a * 65536 + b * 256 + c) / 65536 % 256 = a ∧
    (a * 65536 + b * 256 + c) / 16777216 = 0 := by
  refine ⟨?_, ?_, ?_, ?_⟩ <;> omega

theorem ReverseRGBBytes_byte_swap (w : ℕ) (_hw : w < 2 ^ 32) :
    ReverseRGBBytes w % 256 = w / 65536 % 256 ∧
    ReverseRGBBytes w / 256 % 256 = w / 256 % 256 ∧
    ReverseRGBBytes w / 65536 % 256 = w % 256 ∧
    ReverseRGBBytes w / 16777216 = 0 ∧
    ReverseRGBBytes w < 2 ^ 24 ∧
    ReverseRGBBytes (ReverseRGBBytes w) = w % 2 ^ 24 := by
  have h := ReverseRGBBytes_arith w
  have h2 := ReverseRGBBytes_arith (ReverseRGBBytes w)
  have e : (2 : ℕ) ^ 24 = 16777216 := by norm_num
  rw [e]
  have ha : w % 256 < 256 := Nat.mod_lt _ (by norm_num)
  have hb : w / 256 % 256 < 256 := Nat.mod_lt _ (by norm_num)
  have hc : w / 65536 % 256 < 256 := Nat.mod_lt _ (by norm_num)
  have g1 : ReverseRGBBytes w % 256 = w / 65536 % 256 := by
    rw [h]; exact (bytes_split _ _ _ ha hb hc).1
  have g2 : ReverseRGBBytes w / 256 % 256 = w / 256 % 256 := by
    rw [h]; exact (bytes_split _ _ _ ha hb hc).2.1
  have g3 : ReverseRGBBytes w / 65536 % 256 = w % 256 := by
    rw [h]; exact (bytes_split _ _ _ ha hb hc).2.2.1
  have g4 : ReverseRGBBytes w / 16777216 = 0 := by
    rw [h]; exact (bytes_split _ _ _ ha hb hc).2.2.2
  have g5 : ReverseRGBBytes w < 16777216 := by rw [h]; omega
  have hsplit : w % 16777216 =
      w / 65536 % 256 * 65536 + w / 256 % 256 * 256 + w % 256 := by
    have d1 : w / 256 / 256 = w / 65536 := by
      rw [Nat.div_div_eq_div_mul]
    have d2 : w / 65536 / 256 = w / 16777216 := by
      rw [Nat.div_div_eq_div_mul]
    omega
  refine ⟨g1, g2, g3, g4, g5, ?_⟩
  rw [h2, g1, g2, g3]
  exact hsplit.symm

/-- Witness for ReverseRGBBytes_byte_swap at the concrete word
0x11223344. -/
theorem ReverseRGBBytes_byte_swap_witness :
    (0x11223344 : ℕ) < 2 ^ 32 ∧
    (ReverseRGBBytes 0x11223344 % 256 = 0x11223344 / 65536 % 256 ∧
     ReverseRGBBytes 0x11223344 / 256 % 256 = 0x11223344 / 256 % 256 ∧
     ReverseRGBBytes 0x11223344 / 65536 % 256 = 0x11223344 % 256 ∧
     ReverseRGBBytes 0x11223344 / 16777216 = 0 ∧
     ReverseRGBBytes 0x11223344 < 2 ^ 24 ∧
     ReverseRGBBytes (ReverseRGBBytes 0x11223344) = 0x11223344 % 2 ^ 24) :=
  ⟨by norm_num, ReverseRGBBytes_byte_swap 0x11223344 (by norm_num)⟩

/-- The item list after a sequence of Enqueue calls is the reverse of the
call sequence prepended to the previous list (Enqueue inserts at _head). -/
theorem enqueueAll_items (q : WorkQueue) (ts : List (Int × Int)) :
    (q.enqueueAll ts).items = ts.reverse ++ q.items := by
  induction ts generalizing q with
  | nil => simp [WorkQueue.enqueueAll]
  | cons t ts ih => simp [WorkQueue.enqueueAll, ih, WorkQueue.Enqueue]

/-- No sequence of Enqueue calls ever changes the _Slices field. -/
theorem enqueueAll_slices (q : WorkQueue) (ts : List (Int × Int)) :
    (q.enqueueAll ts).slices = q.slices := by
  induction ts generalizing q with
  | nil => rfl
  | cons t ts ih => simp [WorkQueue.enqueueAll, ih, WorkQueue.Enqueue]

/-- A fresh queue after a sequence of Enqueue calls, explicitly. -/
theorem enqueueAll_init_eq (g : Int) (ts : List (Int × Int)) :
    (WorkQueue.init g).enqueueAll ts = ⟨ts.reverse, g⟩ := by
  have h1 := enqueueAll_items (WorkQueue.init g) ts
  have h2 := enqueueAll_slices (WorkQueue.init g) ts
  cases hq : (WorkQueue.init g).enqueueAll ts
  rw [hq] at h1 h2
  simp_all [WorkQueue.init]

/-- C4 counterexample: enqueue (0,1) then (2,3) on a fresh queue; Dequeue
returns (0,1), the first-enqueued tile, not the most recently enqueued
tile (2,3) that the claimed stack discipline requires. -/
theorem workQueue_not_lifo_cex :
    (((WorkQueue.init 0).Enqueue 0 1).Enqueue 2 3).Dequeue =
      some (((0 : Int), (1 : Int)), (WorkQueue.init 0).Enqueue 2 3) ∧
    ((0 : Int), (1 : Int)) ≠ ((2 : Int), (3 : Int)) := by
  exact ⟨rfl, by decide⟩

/-- C4 (amended): the queue serves tiles first-enqueued-first (a FIFO
discipline): after any sequence of Enqueue calls on a fresh queue, Dequeue
returns the earliest enqueued tile, leaving the queue that the remaining
enqueues alone would have produced. -/
theorem workQueue_fifo (g : Int) (t : Int × Int) (ts : List (Int × Int)) :
    ((WorkQueue.init g).enqueueAll (t :: ts)).Dequeue =
      some (t, (WorkQueue.init g).enqueueAll ts) := by
  rw [enqueueAll_init_eq, enqueueAll_init_eq]
  rw [WorkQueue.Dequeue]
  simp [List.getLast?_concat, List.dropLast_concat]

/-- C5: getSlices returns the _Slices field, which the constructor leaves
holding its indeterminate initial value g and which neither Enqueue nor
Dequeue ever writes; after one Enqueue on a fresh queue it returns g, not
the enqueued-minus-dequeued count 1 (concretely, with g = 7 it returns
7 ≠ 1). -/
theorem getSlices_not_remaining_count (g s e : Int) :
    (((WorkQueue.init g).Enqueue s e).getSlices = g) ∧
    ((WorkQueue.init 7).Enqueue 0 5).getSlices = 7 ∧ (7 : Int) ≠ 1 :=
  ⟨rfl, rfl, by decide⟩

/-- C1: the enqueued tiles do not partition the pixel index space.  With
MaxPixel = 10 and Slices = 2 the enqueued tiles are [0,5) and [6,10), so
pixel 5 lies in no tile; with MaxPixel = 10 and Slices = 3 the tiles are
[0,3), [3,6), [6,9) and [8,10), so pixel 8 lies in two tiles. -/
theorem tiles_gap_and_overlap :
    enqueuedTiles 10 2 = [(0, 5), (6, 10)] ∧
    coverCount (enqueuedTiles 10 2) 5 = 0 ∧
    enqueuedTiles 10 3 = [(0, 3), (3, 6), (6, 9), (8, 10)] ∧
    coverCount (enqueuedTiles 10 3) 8 = 2 := by
  refine ⟨?_, ?_, ?_, ?_⟩ <;> decide

/-- The counting loop can run its body at most fuel many times, whatever
the state, the test and the step are. -/
theorem escapeLoop_le {σ : Type} (test : σ → Bool) (step : σ → σ) :
    ∀ (n : ℕ) (s : σ), escapeLoop test step s n ≤ n := by
  intro n
  induction n with
  | zero => intro s; simp [escapeLoop]
  | succ n ih =>
    intro s
    simp only [escapeLoop]
    split
    · exact Nat.succ_le_succ (ih _)
    · exact Nat.zero_le _

/-- C2: both precision backends of the escape-time kernel return an
iteration count k with 0 ≤ k ≤ M (0 ≤ k is inherent in the ℕ-valued
count), and for M = 0 they return 0 at every point. -/
theorem kernel_iteration_count_range (x0 y0 : ℚ) (M : ℕ) :
    mandelbrotIterFPU x0 y0 M ≤ M ∧ mandelbrotIterFPU x0 y0 0 = 0 ∧
    mandelbrotIterTTMath x0 y0 M ≤ M ∧ mandelbrotIterTTMath x0 y0 0 = 0 :=
  ⟨escapeLoop_le _ _ M _, rfl, escapeLoop_le _ _ M _, rfl⟩

/-- ReverseRGBBytes maps 0 to 0. -/
theorem ReverseRGBBytes_zero : ReverseRGBBytes 0 = 0 := by decide

/-- truncQ evaluated through a bracketing of its nonnegative argument. -/
theorem truncQ_eq_of (q : ℚ) (z : ℤ) (hz : 0 ≤ z) (h1 : (z : ℚ) ≤ q)
    (h2 : q < z + 1) : truncQ q = z := by
  have hq : 0 ≤ q := le_trans (by exact_mod_cast hz) h1
  rw [truncQ, if_pos hq]
  exact Int.floor_eq_iff.mpr ⟨h1, h2⟩

/-- indexedRGBPixel evaluated through a bracketing of the double
expression. -/
theorem indexedRGBPixel_eval (k M : ℕ) (z : ℤ) (hz : 0 ≤ z)
    (h1 : (z : ℚ) ≤ -16777216 / (M : ℚ) * (k : ℚ) + 16777216)
    (h2 : -16777216 / (M : ℚ) * (k : ℚ) + 16777216 < (z : ℚ) + 1) :
    indexedRGBPixel k M = ReverseRGBBytes z.toNat := by
  rw [indexedRGBPixel, truncQ_eq_of _ z hz h1 h2]

/-- Packing the black HSV color produces the pixel value 0. -/
theorem packRGB_black : packRGB (hsv2rgb ⟨0, 0, 0⟩) = 0 := by
  have h0 : hsv2rgb ⟨0, 0, 0⟩ = ⟨0, 0, 0⟩ := by simp [hsv2rgb]
  have ht : truncQ ((0 : ℚ) * 255 + 1 / 2) = 0 :=
    truncQ_eq_of _ 0 le_rfl (by norm_num) (by norm_num)
  rw [h0, packRGB]
  show truncQ ((0 : ℚ) * 255 + 1 / 2) + truncQ ((0 : ℚ) * 255 + 1 / 2) * 2 ^ 8 +
    truncQ ((0 : ℚ) * 255 + 1 / 2) * 2 ^ 16 = 0
  rw [ht]
  norm_num

/-- C7: for k = M with any budget M ≥ 1 both color schemes produce
exactly black: mandelbrotHSV yields hue 0, saturation 0, value 0
(whatever the cached denominator holds), hsv2rgb then packs to 0, and the
indexed-RGB expression evaluates to 0 as well. -/
theorem color_black_at_budget (lll : ℕ → ℚ) (cache : Option ℚ) (M : ℕ)
    (hM : 1 ≤ M) :
    (mandelbrotHSV lll cache M M).1 = ⟨0, 0, 0⟩ ∧
    packRGB (hsv2rgb (mandelbrotHSV lll cache M M).1) = 0 ∧
    indexedRGBPixel M M = 0 := by
  have h1 : (mandelbrotHSV lll cache M M).1 = ⟨0, 0, 0⟩ := by
    simp [mandelbrotHSV]
  have hM0 : (M : ℚ) ≠ 0 := Nat.cast_ne_zero.mpr (Nat.one_le_iff_ne_zero.mp hM)
  have h3 : (-16777216 : ℚ) / (M : ℚ) * (M : ℚ) + 16777216 = 0 := by
    rw [div_mul_cancel₀ _ hM0]
    norm_num
  refine ⟨h1, ?_, ?_⟩
  · rw [h1]; exact packRGB_black
  · rw [indexedRGBPixel, h3]
    simp [truncQ, ReverseRGBBytes_zero]

/-- Witness for color_black_at_budget at M = 1000 with the triple log
instantiated by the zero function. -/
theorem color_black_at_budget_witness :
    (1 ≤ 1000) ∧
    ((mandelbrotHSV (fun _ => 0) none 1000 1000).1 = ⟨0, 0, 0⟩ ∧
     packRGB (hsv2rgb (mandelbrotHSV (fun _ => 0) none 1000 1000).1) = 0 ∧
     indexedRGBPixel 1000 1000 = 0) :=
  ⟨by norm_num, color_black_at_budget (fun _ => 0) none 1000 (by norm_num)⟩

/-- C3 counterexample: at k = 0, M = 1000 the value the worker writes is
0 (black) — the intermediate 16777216 = 2^24 has no bits in the low 24,
which is all ReverseRGBBytes keeps — not the maximum-brightness 0xffffff
the claim asserts; and at k = 1, M = 3 the written value 0xaaaaaa differs
from the round-based value of the claim, because the C cast truncates. -/
theorem indexedRGB_not_white_cex :
    indexedRGBPixel 0 1000 = 0 ∧ (0 : ℕ) ≠ 0xffffff ∧
    indexedRGBPixel 1 3 = 0xaaaaaa ∧ specIndexedRGBRound 1 3 = 0xabaaaa ∧
    indexedRGBPixel 1 3 ≠ specIndexedRGBRound 1 3 := by
  have e1 : indexedRGBPixel 0 1000 = ReverseRGBBytes (16777216 : ℤ).toNat :=
    indexedRGBPixel_eval 0 1000 16777216 (by norm_num) (by norm_num) (by norm_num)
  have e2 : indexedRGBPixel 1 3 = ReverseRGBBytes (11184810 : ℤ).toNat :=
    indexedRGBPixel_eval 1 3 11184810 (by norm_num) (by norm_num) (by norm_num)
  have hr : round ((16777216 : ℚ) * (1 - ((1 : ℕ) : ℚ) / ((3 : ℕ) : ℚ))) =
      11184811 := by
    rw [round_eq, Int.floor_eq_iff]
    norm_num
  have e3 : specIndexedRGBRound 1 3 =
      ReverseRGBBytes ((11184811 : ℤ).toNat % 2 ^ 24) := by
    rw [specIndexedRGBRound, hr]
  rw [e1, e2, e3]
  refine ⟨by decide, by decide, by decide, by decide, by decide⟩

/-- C3 (amended): for M ≥ 1 the indexed-RGB pixel value equals
16777216 * (1 - k/M) truncated toward zero (as the C cast does, not
rounded), reduced to its low 24 bits, with the red and blue bytes
exchanged and the alpha byte zero; in particular for k = 0 and M = 1000
the truncated value is 2^24, so the value written is 0 (black). -/
theorem indexedRGB_formula_trunc (k M : ℕ) (hM : 1 ≤ M) :
    indexedRGBPixel k M = specIndexedRGBTrunc k M ∧
    indexedRGBPixel 0 1000 = 0 := by
  have hM0 : (M : ℚ) ≠ 0 := Nat.cast_ne_zero.mpr (Nat.one_le_iff_ne_zero.mp hM)
  have he : (-16777216 : ℚ) / (M : ℚ) * (k : ℚ) + 16777216 =
      16777216 * (1 - (k : ℚ) / M) := by
    field_simp
    ring
  constructor
  · rw [indexedRGBPixel, specIndexedRGBTrunc, he, ReverseRGBBytes_mod24]
  · have e1 : indexedRGBPixel 0 1000 = ReverseRGBBytes (16777216 : ℤ).toNat :=
      indexedRGBPixel_eval 0 1000 16777216 (by norm_num) (by norm_num) (by norm_num)
    rw [e1]
    decide

/-- Witness for indexedRGB_formula_trunc at k = 1, M = 3. -/
theorem indexedRGB_formula_trunc_witness :
    (1 ≤ 3) ∧
    (indexedRGBPixel 1 3 = specIndexedRGBTrunc 1 3 ∧
     indexedRGBPixel 0 1000 = 0) :=
  ⟨by norm_num, indexedRGB_formula_trunc 1 3 (by norm_num)⟩

/-- C8: the cached triple-log denominator is a function-local static, so
the first call fixes it to lll applied to that first budget M1, and every
later call — in particular a whole later render with a different budget
M2 — still divides by lll M1: the escaped-pixel hue of the second call is
360 * lll k / lll M1, not 360 * lll k / lll M2, and the cell still holds
lll M1. -/
theorem hsv_cache_stale_across_renders (lll : ℕ → ℚ) (j M1 k M2 : ℕ)
    (hk : k ≠ M2) :
    (mandelbrotHSV lll (mandelbrotHSV lll none j M1).2 k M2).1.h =
      lll k / lll M1 * 360 ∧
    (mandelbrotHSV lll (mandelbrotHSV lll none j M1).2 k M2).2 =
      some (lll M1) := by
  have h1 : (mandelbrotHSV lll none j M1).2 = some (lll M1) := by
    rw [mandelbrotHSV]
    split <;> rfl
  rw [h1, mandelbrotHSV]
  rw [if_neg hk]
  exact ⟨rfl, rfl⟩

/-- Witness for hsv_cache_stale_across_renders: first render with budget
1000, second render with budget 2000, escaped pixel count 5; the hue
denominator is still the first budget. -/
theorem hsv_cache_stale_witness :
    ((5 : ℕ) ≠ 2000) ∧
    ((mandelbrotHSV (fun n => (n : ℚ))
        (mandelbrotHSV (fun n => (n : ℚ)) none 1000 1000).2 5 2000).1.h =
      ((5 : ℕ) : ℚ) / ((1000 : ℕ) : ℚ) * 360 ∧
     (mandelbrotHSV (fun n => (n : ℚ))
        (mandelbrotHSV (fun n => (n : ℚ)) none 1000 1000).2 5 2000).2 =
      some ((1000 : ℕ) : ℚ)) :=
  ⟨by decide,
   hsv_cache_stale_across_renders (fun n => (n : ℚ)) 1000 1000 5 2000 (by decide)⟩

/-- C6: the Parameters dialog accepts a configuration whose viewport has
yMin ≥ yMax (0 < 1 = xMin < xMax, yMin = 9 ≥ yMax = 2, valid counts),
because its second check compares xMax with yMax instead of yMin with
yMax; for the same reason it rejects the valid configuration
xMin = 0 < xMax = 5, yMin = 0 < yMax = 1.  The file path validates the
same invalid record correctly. -/
theorem dialog_validation_wrong_check :
    dialogValidationAccepts ⟨0, 1, 9, 2, 1000, 5000, 12, false, true, false⟩
      = true ∧
    (9 : ℚ) ≥ (2 : ℚ) ∧
    dialogValidationAccepts ⟨0, 5, 0, 1, 1000, 5000, 12, false, true, false⟩
      = false ∧
    (0 : ℚ) < 5 ∧ (0 : ℚ) < 1 ∧
    fileValidationAccepts true ⟨0, 1, 9, 2, 1000, 5000, 12, false, true, false⟩
      = false := by
  refine ⟨by decide, by norm_num, by decide, by norm_num, by norm_num, by decide⟩

/-- C9: when the ID_FILE_OPEN handler rejects a record — a short read, a
viewport bound violation on either axis, a count below 1 or a thread
count above 64 — the live parameters are returned unchanged. -/
theorem fileOpen_reject_leaves_state (cur : ParamRecord) (r : Option ParamRecord)
    (h : r = none ∨ ∃ t, r = some t ∧
      (t.dxMin ≥ t.dxMax ∨ t.dyMin ≥ t.dyMax ∨ t.Iterations < 1 ∨
       t.Slices < 1 ∨ t.Threads < 1 ∨ t.Threads > 64)) :
    fileOpenResult cur r = cur := by
  rcases h with h | ⟨t, rfl, ht⟩
  · rw [h]; rfl
  · have hv : fileValidationAccepts true t = false := by
      rw [fileValidationAccepts, if_pos (Or.inr ht)]
    simp [fileOpenResult, hv]

/-- Witness for fileOpen_reject_leaves_state: a record with
dyMin = 9 ≥ dyMax = 2 leaves the in-force parameters untouched. -/
theorem fileOpen_reject_leaves_state_witness :
    fileOpenResult ⟨0, 1, 0, 1, 10, 10, 4, false, false, false⟩
      (some ⟨0, 1, 9, 2, 1000, 5000, 12, false, true, false⟩) =
      ⟨0, 1, 0, 1, 10, 10, 4, false, false, false⟩ :=
  fileOpen_reject_leaves_state _ _
    (Or.inr ⟨_, rfl, Or.inr (Or.inl (by norm_num))⟩)

end Mandelbrot
